import Mathlib

/-!
Verification of the kaiju-killers avatar core against its specification.

The embedding below translates, from the TypeScript source:
- `src/src/hooks/useKeyboardMovement.ts` (`updateMovement`): the Movement
  Integrator, modelled as a pure function of the hook's mutable refs
  (pressed-key set, current position, current rotation) plus the `speed`
  option and the `deltaTime` argument;
- `src/src/utils/loaders/gltfInspector.ts` (`createNormalizedContainer`):
  the Model Normalizer, over exact rationals (the source reads only the
  model's axis-aligned bounding box, so a model is abstracted by that box);
- `src/unnamed/part_009` (`ModernAvatarSystem`): the Root-Motion Stripper
  (`getRootMotionStrippedClips`), the Animation Selector (the clip
  resolution and switch logic of the per-frame callback together with
  `playStrippedByName`, whose mixer calls are recorded as an effect trace),
  and the Instance Guard (the `window`-keyed owner registry, modelled as an
  explicit association list).

Real-valued quantities (positions, speeds, angles) are modelled over `ℝ`
with `Real.sqrt` for `Math.hypot` and an explicit case-split definition for
`Math.atan2`; discrete data (key codes, clip names, tracks, the owner
registry) stays computable so concrete runs can be evaluated.
-/

/-! ## Movement Integrator (src/src/hooks/useKeyboardMovement.ts) -/

/-- A 3-component vector, as used for `position`/`rotation` tuples. -/
structure Vec3 where
  x : ℝ
  y : ℝ
  z : ℝ

/-- The `velocity` record `{x, z, speed}` returned by `updateMovement`. -/
structure Velocity where
  x : ℝ
  z : ℝ
  speed : ℝ

/-- The `MovementState` record returned by `updateMovement`. -/
structure MovementState where
  position : Vec3
  rotation : Vec3
  isMoving : Bool
  isRunning : Bool
  velocity : Velocity
  activeKeys : List String

/-- The four directional key groups of `MOVEMENT_KEYS`. -/
inductive Direction where
  | forward
  | backward
  | left
  | right
deriving DecidableEq

/-- `MOVEMENT_KEYS`: key codes per direction, in declaration order. -/
def MOVEMENT_KEYS : Direction → List String
  | .forward => ["KeyW", "ArrowUp"]
  | .backward => ["KeyS", "ArrowDown"]
  | .left => ["KeyA", "ArrowLeft"]
  | .right => ["KeyD", "ArrowRight"]

/-- `RUN_KEYS`: the run-modifier key codes. -/
def RUN_KEYS : List String := ["ShiftLeft", "ShiftRight"]

/-- `keys.some(key => keysPressed.current.has(key))` for one direction group.
`keys` is the pressed-key set of the hook (a JS `Set`, modelled as a list). -/
def dirPressed (keys : List String) (d : Direction) : Bool :=
  (MOVEMENT_KEYS d).any fun k => keys.contains k

/-- Loop state of the `for (const [direction, keys] of directions)` loop:
the `moveX`/`moveZ` accumulators, the `newRotY` variable and the `isMoving`
flag. -/
structure MoveAccum where
  moveX : ℝ
  moveZ : ℝ
  rotY : ℝ
  isMoving : Bool

/-- One iteration of the direction loop in `updateMovement`: if the group is
pressed, mark `isMoving`, add `frameSpeed` with the direction's sign to the
axis accumulator and overwrite `newRotY` per the `switch`.  `frameSpeed` is
computed identically on every iteration in the source
(`speed * runMultiplier * (deltaTime * 60)`), so it is hoisted here. -/
noncomputable def stepDirection (frameSpeed : ℝ) (keys : List String) (acc : MoveAccum)
    (d : Direction) : MoveAccum :=
  if dirPressed keys d then
    match d with
    | .forward => { acc with moveZ := acc.moveZ - frameSpeed, rotY := 0, isMoving := true }
    | .backward => { acc with moveZ := acc.moveZ + frameSpeed, rotY := Real.pi, isMoving := true }
    | .left => { acc with moveX := acc.moveX - frameSpeed, rotY := Real.pi / 2, isMoving := true }
    | .right => { acc with moveX := acc.moveX + frameSpeed, rotY := -(Real.pi / 2), isMoving := true }
  else acc

/-- `Object.entries(MOVEMENT_KEYS)` iteration order. -/
def directionOrder : List Direction := [.forward, .backward, .left, .right]

/-- `Math.hypot(x, z)`. -/
noncomputable def hypot (x z : ℝ) : ℝ := Real.sqrt (x ^ 2 + z ^ 2)

/-- `Math.atan2(y, x)` on the reals (signed zeros ignored). -/
noncomputable def atan2 (y x : ℝ) : ℝ :=
  if 0 < x then Real.arctan (y / x)
  else if x < 0 then
    if 0 ≤ y then Real.arctan (y / x) + Real.pi else Real.arctan (y / x) - Real.pi
  else
    if 0 < y then Real.pi / 2 else if y < 0 then -(Real.pi / 2) else 0

/-- `updateMovement(deltaTime)` of `useKeyboardMovement`, as a function of the
hook's configuration (`speed`) and mutable refs (`currentPosition`,
`currentRotation`, `keysPressed`) plus the `deltaTime` argument.  Returns the
`returnState` object; the refs' new values are its `position`/`rotation`
fields (the source writes them back before building `returnState`). -/
noncomputable def updateMovement (speed : ℝ) (pos rot : Vec3) (keys : List String)
    (deltaTime : ℝ) : MovementState :=
  let runPressed := RUN_KEYS.any fun k => keys.contains k
  let runMultiplier : ℝ := if runPressed then 1.8 else 1.0
  let frameSpeed : ℝ := speed * runMultiplier * (deltaTime * 60)
  let acc := directionOrder.foldl (stepDirection frameSpeed keys) ⟨0, 0, rot.y, false⟩
  let newPos : Vec3 :=
    if acc.isMoving then ⟨pos.x + acc.moveX, pos.y, pos.z + acc.moveZ⟩ else pos
  let len : ℝ := hypot acc.moveX acc.moveZ
  let newRotY : ℝ :=
    if acc.isMoving then
      if len > 1 / 1000000 then atan2 (-acc.moveX) (-acc.moveZ) else acc.rotY
    else acc.rotY
  let newRot : Vec3 := if acc.isMoving then ⟨0, newRotY, 0⟩ else rot
  { position := newPos
    rotation := newRot
    isMoving := acc.isMoving
    isRunning := runPressed
    velocity := ⟨acc.moveX, acc.moveZ, hypot acc.moveX acc.moveZ⟩
    activeKeys := keys }

/-! ## Model Normalizer (src/src/utils/loaders/gltfInspector.ts) -/

/-- A 3-component vector over exact rationals, for the normalizer. -/
structure Vec3Q where
  x : ℚ
  y : ℚ
  z : ℚ
deriving DecidableEq

/-- An axis-aligned bounding box (`THREE.Box3`).  The source's only use of
the model inside `createNormalizedContainer` is
`new THREE.Box3().setFromObject(model)`, so a model is abstracted here by
that box. -/
structure Box3 where
  min : Vec3Q
  max : Vec3Q
deriving DecidableEq

/-- `bbox.getSize(size)`: componentwise `max - min`. -/
def boxSize (b : Box3) : Vec3Q :=
  ⟨b.max.x - b.min.x, b.max.y - b.min.y, b.max.z - b.min.z⟩

/-- `bbox.getCenter(center)`: componentwise midpoint. -/
def boxCenter (b : Box3) : Vec3Q :=
  ⟨(b.min.x + b.max.x) / 2, (b.min.y + b.max.y) / 2, (b.min.z + b.max.z) / 2⟩

/-- A `THREE.Group` restricted to the transform fields the normalizer
writes: `position` and `scale` (both default to the identity transform). -/
structure Group3D where
  position : Vec3Q
  scale : Vec3Q
deriving DecidableEq

/-- `createNormalizedContainer(model, {targetHeight, centerToGround})`,
returning the `(container, pivot)` pair of groups it creates.  The JS guard
`if (targetHeight && size.y > 0)` is truthiness-based: a missing
(`none`) or zero `targetHeight` skips scaling, in which case the container
scale stays at its default `1`.  `container.scale.setScalar(scaleFactor)`
writes the same factor to all three axes. -/
def createNormalizedContainer (modelBox : Box3) (targetHeight : Option ℚ)
    (centerToGround : Bool) : Group3D × Group3D :=
  let size := boxSize modelBox
  let center := boxCenter modelBox
  let pivotPosition : Vec3Q :=
    if centerToGround then ⟨-center.x, -modelBox.min.y, -center.z⟩ else ⟨0, 0, 0⟩
  let containerScale : Vec3Q :=
    match targetHeight with
    | some th =>
      if th ≠ 0 ∧ size.y > 0 then ⟨th / size.y, th / size.y, th / size.y⟩ else ⟨1, 1, 1⟩
    | none => ⟨1, 1, 1⟩
  (⟨⟨0, 0, 0⟩, containerScale⟩, ⟨pivotPosition, ⟨1, 1, 1⟩⟩)

/-! ## Root-Motion Stripper (src/unnamed/part_009, `getRootMotionStrippedClips`) -/

/-- A `THREE.KeyframeTrack`: a target name of the form
`nodePath.property` (e.g. `"Hips.position"`) plus its keyframe payload. -/
structure KeyframeTrack where
  name : String
  times : List ℚ
  values : List ℚ
deriving DecidableEq

/-- A `THREE.AnimationClip`: a name, a duration and the track list. -/
structure AnimationClip where
  name : String
  duration : ℚ
  tracks : List KeyframeTrack
deriving DecidableEq

/-- `getRootMotionStrippedClips()`: for each clip of `avatar.animations`,
build `new THREE.AnimationClip(clip.name, clip.duration, filteredTracks)`
where `filteredTracks` drops every track whose name ends in `".position"`. -/
def getRootMotionStrippedClips (animations : List AnimationClip) : List AnimationClip :=
  if animations.isEmpty then []
  else
    animations.map fun clip =>
      { name := clip.name
        duration := clip.duration
        tracks := clip.tracks.filter fun track => !(track.name.endsWith ".position") }

/-! ## Animation Selector (src/unnamed/part_009, frame callback +
`playStrippedByName`; `playAnimation` of `useModernAnimationControls` is
included for contrast) -/

/-- A call on a `THREE.AnimationAction` obtained from the mixer, recorded as
an effect.  `setLoopRepeatInfinite` is `setLoop(THREE.LoopRepeat, Infinity)`. -/
inductive ActionEffect where
  | fadeOut (clip : String) (duration : ℚ)
  | reset (clip : String)
  | fadeIn (clip : String) (duration : ℚ)
  | setLoopRepeatInfinite (clip : String)
  | play (clip : String)
deriving DecidableEq

/-- `playStrippedByName(name)`: look the clip up by name in the stripped
clip set, falling back to `strippedClips[0]`; if none, return with no
effects; else reset/fade-in/loop/play the new action and record its name in
`currentClipNameRef`.  `current` is the value of `currentClipNameRef`;
the returned pair is (new `currentClipNameRef` value, mixer effects).
Note the source issues no `fadeOut` on the previously playing action here. -/
def playStrippedByName (strippedClips : List AnimationClip) (current : Option String)
    (name : String) : Option String × List ActionEffect :=
  match (strippedClips.find? fun c => c.name == name).orElse (fun _ => strippedClips.head?) with
  | none => (current, [])
  | some clip =>
    (some clip.name,
      [ActionEffect.reset clip.name, ActionEffect.fadeIn clip.name 0.2,
        ActionEffect.setLoopRepeatInfinite clip.name, ActionEffect.play clip.name])

/-- `playAnimation(animationName)` of `useModernAnimationControls` (assuming
the mixer is registered): fade out the current action over 0.2s, then
reset/fade-in/loop/play the new one.  This helper is *not* the one invoked
by the per-frame Animation Selector. -/
def playAnimation (animations : List AnimationClip) (current : Option String)
    (animationName : String) : Bool × Option String × List ActionEffect :=
  match animations.find? fun anim => anim.name == animationName with
  | none => (false, current, [])
  | some animation =>
    let fadeOutPrev : List ActionEffect :=
      match current with
      | some prev => [ActionEffect.fadeOut prev 0.2]
      | none => []
    (true, some animation.name,
      fadeOutPrev ++
        [ActionEffect.reset animation.name, ActionEffect.fadeIn animation.name 0.2,
          ActionEffect.setLoopRepeatInfinite animation.name, ActionEffect.play animation.name])

/-- `pat` occurs as a contiguous run of `s` (character lists). -/
def charsStart : List Char → List Char → Bool
  | [], _ => true
  | _ :: _, [] => false
  | a :: ps, b :: ss => a == b && charsStart ps ss

/-- Substring test on character lists. -/
def charsSub (pat : List Char) : List Char → Bool
  | [] => charsStart pat []
  | b :: rest => charsStart pat (b :: rest) || charsSub pat rest

/-- `/pat/i.test(s)` for a literal lowercase pattern `pat`, as used by the
selector's clip-name regexes: case-insensitive substring containment
(the subject is lowercased characterwise). -/
def testCI (pat s : String) : Bool := charsSub pat.toList (s.toList.map Char.toLower)

/-- `/idle|stand|tpose/i.test(s)`. -/
def idleLikePattern (s : String) : Bool :=
  testCI "idle" s || testCI "stand" s || testCI "tpose" s

/-- A clip-name regex of the frame callback: `ci pat` is `/pat/i` for a
literal lowercase pattern, and `emptyOnly` is `/$^/` (the non-running slot),
which in JavaScript matches exactly the empty string (the only position
that is both at the end (`$`) and at the start (`^`) of the subject). -/
inductive ClipPattern where
  | ci (pat : String)
  | emptyOnly

/-- `p.test(name)` for a `ClipPattern`. -/
def matchesPattern : ClipPattern → String → Bool
  | .ci pat, s => testCI pat s
  | .emptyOnly, s => s == ""

/-- `findBy(patterns)` of the frame callback: return the name of the first
clip matched by the first pattern that hits anything. -/
def findBy (clips : List AnimationClip) : List ClipPattern → Option String
  | [] => none
  | p :: rest =>
    match clips.find? fun c => matchesPattern p c.name with
    | some hit => some hit.name
    | none => findBy clips rest

/-- The idle-side resolution of the frame callback: prefer
`/smok/i`, `/idle/i`, `/stand/i`, `/tpose/i`, else `clips[0]`'s name, else
nothing. -/
def resolveIdleClip (clips : List AnimationClip) : Option String :=
  match findBy clips [.ci "smok", .ci "idle", .ci "stand", .ci "tpose"] with
  | some idle => some idle
  | none => clips.head?.map fun c => c.name

/-- The `want` computation of the frame callback: when moving, prefer
run (only if running; the non-running slot holds `/$^/`) / walk / move /
locomotion / forward, else the first non-idle-like clip, else fall through
to the idle resolution. -/
def resolveClip (clips : List AnimationClip) (isMoving isRunning : Bool) : Option String :=
  if isMoving then
    match findBy clips
        [(if isRunning then ClipPattern.ci "run" else ClipPattern.emptyOnly), .ci "walk",
          .ci "move", .ci "locomotion", .ci "forward"] with
    | some moving => some moving
    | none =>
      match clips.find? fun c => !(idleLikePattern c.name) with
      | some nonIdle => some nonIdle.name
      | none => resolveIdleClip clips
  else resolveIdleClip clips

/-- The animation-selection step of the per-frame callback: compute `want`;
the guard `if (want && want !== currentClipNameRef.current)` requires `want`
to be *truthy* — non-null and a nonempty string — and different (`!==`) from
`currentClipNameRef.current`; only then is it committed and
`playStrippedByName` invoked, otherwise the tick does nothing.  Returns
(new `currentClipNameRef` value, mixer-action effects issued this tick). -/
def frameAnimationSelect (clips : List AnimationClip) (current : Option String)
    (isMoving isRunning : Bool) : Option String × List ActionEffect :=
  match resolveClip clips isMoving isRunning with
  | some want =>
    if want ≠ "" ∧ some want ≠ current then playStrippedByName clips (some want) want
    else (current, [])
  | none => (current, [])

/-! ## Instance Guard (src/unnamed/part_009, window-global registry) -/

/-- The ambient `window` registry, keyed by `instance_${avatar.name}`:
an association list from avatar id to the owning component instance id. -/
abbrev Registry : Type := List (String × String)

/-- The guard executed at the top of `ModernAvatarSystem`:
if `window[instance_${avatar.name}]` is set to a different instance, block
(return `false`, registry unchanged); if unset, register this instance as
owner; if already set to this very instance (a re-render of the owner),
proceed. -/
def acquire (reg : Registry) (avatarId instanceId : String) : Bool × Registry :=
  match List.lookup avatarId reg with
  | some existing => if existing = instanceId then (true, reg) else (false, reg)
  | none => (true, (avatarId, instanceId) :: reg)

/-- The unmount cleanup: `if (window[key] === componentId) delete window[key]`. -/
def release (reg : Registry) (avatarId instanceId : String) : Registry :=
  if List.lookup avatarId reg = some instanceId then
    List.eraseP (fun p => p.1 == avatarId) reg
  else reg

/-- Outcome of one render of `ModernAvatarSystem` against the guard. -/
structure RenderOutcome where
  owner : Bool
  sceneMutations : ℕ
  mixerCreated : Bool

/-- One render of `ModernAvatarSystem` reduced to its guard behaviour: a
blocked instance `return null` before any scene work (no mutation, no
mixer); the owner's setup adds the normalized container to its group (a
scene mutation) and creates an `AnimationMixer` iff the avatar has
animations. -/
def renderInstance (reg : Registry) (avatarId instanceId : String) (hasAnimations : Bool) :
    RenderOutcome × Registry :=
  let res := acquire reg avatarId instanceId
  if res.1 then
    ({ owner := true, sceneMutations := 1, mixerCreated := hasAnimations }, res.2)
  else
    ({ owner := false, sceneMutations := 0, mixerCreated := false }, res.2)

/-! ### Characterization of the direction loop -/

/-- `runPressed`: some run-modifier key is in the pressed set. -/
def runPressedOf (keys : List String) : Bool := RUN_KEYS.any fun k => keys.contains k

/-- Some directional key group is pressed (the value `isMoving` ends up
with after the direction loop). -/
def anyDirPressed (keys : List String) : Bool :=
  dirPressed keys .forward || dirPressed keys .backward ||
    dirPressed keys .left || dirPressed keys .right

/-- The per-update `frameSpeed = speed * runMultiplier * (deltaTime * 60)`. -/
noncomputable def frameSpeedOf (speed : ℝ) (keys : List String) (dt : ℝ) : ℝ :=
  speed * (if runPressedOf keys then 1.8 else 1.0) * (dt * 60)

/-- The value of the `moveX` accumulator after the direction loop. -/
noncomputable def moveXOf (speed : ℝ) (keys : List String) (dt : ℝ) : ℝ :=
  (if dirPressed keys .left then -frameSpeedOf speed keys dt else 0) +
    (if dirPressed keys .right then frameSpeedOf speed keys dt else 0)

/-- The value of the `moveZ` accumulator after the direction loop. -/
noncomputable def moveZOf (speed : ℝ) (keys : List String) (dt : ℝ) : ℝ :=
  (if dirPressed keys .forward then -frameSpeedOf speed keys dt else 0) +
    (if dirPressed keys .backward then frameSpeedOf speed keys dt else 0)

/-- The value of the `newRotY` variable after the direction loop (the last
pressed direction in loop order wins; `ry` is the incoming yaw). -/
noncomputable def loopRotY (keys : List String) (ry : ℝ) : ℝ :=
  if dirPressed keys .right then -(Real.pi / 2)
  else if dirPressed keys .left then Real.pi / 2
  else if dirPressed keys .backward then Real.pi
  else if dirPressed keys .forward then 0
  else ry

lemma foldDirections_spec (fs : ℝ) (keys : List String) (ry : ℝ) :
    directionOrder.foldl (stepDirection fs keys) ⟨0, 0, ry, false⟩ =
      { moveX := (if dirPressed keys .left then -fs else 0) +
          (if dirPressed keys .right then fs else 0)
        moveZ := (if dirPressed keys .forward then -fs else 0) +
          (if dirPressed keys .backward then fs else 0)
        rotY :=
          if dirPressed keys .right then -(Real.pi / 2)
          else if dirPressed keys .left then Real.pi / 2
          else if dirPressed keys .backward then Real.pi
          else if dirPressed keys .forward then 0
          else ry
        isMoving := dirPressed keys .forward || dirPressed keys .backward ||
          dirPressed keys .left || dirPressed keys .right } := by
  cases hf : dirPressed keys .forward <;>
    cases hb : dirPressed keys .backward <;>
      cases hl : dirPressed keys .left <;>
        cases hr : dirPressed keys .right <;>
          simp [directionOrder, stepDirection, hf, hb, hl, hr, MoveAccum.mk.injEq]

/-- Closed form of `updateMovement`: every field of the returned
`MovementState` in terms of the pressed-key predicates. -/
lemma updateMovement_spec (speed : ℝ) (pos rot : Vec3) (keys : List String) (dt : ℝ) :
    updateMovement speed pos rot keys dt =
      { position :=
          if anyDirPressed keys then
            ⟨pos.x + moveXOf speed keys dt, pos.y, pos.z + moveZOf speed keys dt⟩
          else pos
        rotation :=
          if anyDirPressed keys then
            ⟨0,
              if hypot (moveXOf speed keys dt) (moveZOf speed keys dt) > 1 / 1000000 then
                atan2 (-moveXOf speed keys dt) (-moveZOf speed keys dt)
              else loopRotY keys rot.y,
              0⟩
          else rot
        isMoving := anyDirPressed keys
        isRunning := runPressedOf keys
        velocity :=
          ⟨moveXOf speed keys dt, moveZOf speed keys dt,
            hypot (moveXOf speed keys dt) (moveZOf speed keys dt)⟩
        activeKeys := keys } := by
  simp only [updateMovement, foldDirections_spec, moveXOf, moveZOf, frameSpeedOf,
    runPressedOf, anyDirPressed, loopRotY]
  cases h : (dirPressed keys Direction.forward || dirPressed keys Direction.backward ||
      dirPressed keys Direction.left || dirPressed keys Direction.right) <;> simp [h]

/-! ## Claim theorems: Movement Integrator -/

/-- C8: with position `[0,0,0]`, only the forward key held, `deltaTime = 0.016`,
base speed `0.2` and not running, `updateMovement` computes
`frameSpeed = baseSpeed * 1 * (deltaTime * 60)` and yields `moveZ = -0.192`,
new position `[0, 0, -0.192]` and yaw `0`. -/
theorem c8_scenario_a :
    (updateMovement 0.2 ⟨0, 0, 0⟩ ⟨0, 0, 0⟩ ["KeyW"] 0.016).velocity.z =
        -(0.2 * 1.0 * (0.016 * 60)) ∧
    (updateMovement 0.2 ⟨0, 0, 0⟩ ⟨0, 0, 0⟩ ["KeyW"] 0.016).velocity.z = -0.192 ∧
    (updateMovement 0.2 ⟨0, 0, 0⟩ ⟨0, 0, 0⟩ ["KeyW"] 0.016).position = ⟨0, 0, -0.192⟩ ∧
    (updateMovement 0.2 ⟨0, 0, 0⟩ ⟨0, 0, 0⟩ ["KeyW"] 0.016).rotation = ⟨0, 0, 0⟩ := by
  have hf : dirPressed ["KeyW"] Direction.forward = true := by decide
  have hb : dirPressed ["KeyW"] Direction.backward = false := by decide
  have hl : dirPressed ["KeyW"] Direction.left = false := by decide
  have hr : dirPressed ["KeyW"] Direction.right = false := by decide
  have hrun : runPressedOf ["KeyW"] = false := by decide
  have hmov : anyDirPressed ["KeyW"] = true := by decide
  have hfs : frameSpeedOf 0.2 ["KeyW"] 0.016 = 0.192 := by
    rw [frameSpeedOf, hrun]
    norm_num
  have hmx : moveXOf 0.2 ["KeyW"] 0.016 = 0 := by
    rw [moveXOf, hl, hr]
    norm_num
  have hmz : moveZOf 0.2 ["KeyW"] 0.016 = -0.192 := by
    rw [moveZOf, hf, hb, hfs]
    norm_num
  have hhyp : hypot (moveXOf 0.2 ["KeyW"] 0.016) (moveZOf 0.2 ["KeyW"] 0.016) = 0.192 := by
    rw [hmx, hmz, hypot, show (0 : ℝ) ^ 2 + (-0.192 : ℝ) ^ 2 = (0.192 : ℝ) ^ 2 by norm_num]
    exact Real.sqrt_sq (by norm_num)
  have hatan : atan2 (-moveXOf 0.2 ["KeyW"] 0.016) (-moveZOf 0.2 ["KeyW"] 0.016) = 0 := by
    rw [hmx, hmz]
    norm_num [atan2, Real.arctan_zero]
  have hcond : hypot (moveXOf 0.2 ["KeyW"] 0.016) (moveZOf 0.2 ["KeyW"] 0.016) > 1 / 1000000 := by
    rw [hhyp]
    norm_num
  refine ⟨?_, ?_, ?_, ?_⟩
  · simp only [updateMovement_spec]
    rw [hmz]
    norm_num
  · simp only [updateMovement_spec]
    rw [hmz]
  · simp only [updateMovement_spec, hmov, if_true]
    rw [hmx, hmz]
    norm_num [Vec3.mk.injEq]
  · simp only [updateMovement_spec, hmov, if_true, hcond, hatan]

/-- C10: `isMoving` is exactly "some directional key group is pressed",
independent of actual displacement; in particular with forward+backward both
held it is `true` even though the speed is `0`. -/
theorem c10_isMoving_reflects_keys (speed : ℝ) (pos rot : Vec3) (keys : List String) (dt : ℝ) :
    ((updateMovement speed pos rot keys dt).isMoving =
      (dirPressed keys .forward || dirPressed keys .backward ||
        dirPressed keys .left || dirPressed keys .right)) ∧
    (updateMovement 0.2 ⟨0, 0, 0⟩ ⟨0, 0, 0⟩ ["KeyW", "KeyS"] 0.016).isMoving = true ∧
    (updateMovement 0.2 ⟨0, 0, 0⟩ ⟨0, 0, 0⟩ ["KeyW", "KeyS"] 0.016).velocity.speed = 0 := by
  have hf : dirPressed ["KeyW", "KeyS"] Direction.forward = true := by decide
  have hb : dirPressed ["KeyW", "KeyS"] Direction.backward = true := by decide
  have hl : dirPressed ["KeyW", "KeyS"] Direction.left = false := by decide
  have hr : dirPressed ["KeyW", "KeyS"] Direction.right = false := by decide
  have hmx : moveXOf 0.2 ["KeyW", "KeyS"] 0.016 = 0 := by
    rw [moveXOf, hl, hr]
    norm_num
  have hmz : moveZOf 0.2 ["KeyW", "KeyS"] 0.016 = 0 := by
    rw [moveZOf, hf, hb]
    simp
  refine ⟨by simp [updateMovement_spec, anyDirPressed], by simp [updateMovement_spec]; decide, ?_⟩
  simp [updateMovement_spec, hmx, hmz, hypot, Real.sqrt_zero]

/-- C9: holding both keys of an opposing pair during one update yields zero
net displacement (and zero velocity component) on that axis, for any
deltaTime: both directions add the same `frameSpeed` with opposite signs to
the same accumulator. -/
theorem c9_opposing_keys_cancel (speed : ℝ) (pos rot : Vec3) (keys : List String) (dt : ℝ) :
    (dirPressed keys .forward = true → dirPressed keys .backward = true →
      (updateMovement speed pos rot keys dt).velocity.z = 0 ∧
      (updateMovement speed pos rot keys dt).position.z = pos.z) ∧
    (dirPressed keys .left = true → dirPressed keys .right = true →
      (updateMovement speed pos rot keys dt).velocity.x = 0 ∧
      (updateMovement speed pos rot keys dt).position.x = pos.x) := by
  constructor
  · intro hf hb
    have hmz : moveZOf speed keys dt = 0 := by
      rw [moveZOf, hf, hb]
      simp
    have hmov : anyDirPressed keys = true := by simp [anyDirPressed, hf]
    constructor
    · simp [updateMovement_spec, hmz]
    · simp [updateMovement_spec, hmov, hmz]
  · intro hl hr
    have hmx : moveXOf speed keys dt = 0 := by
      rw [moveXOf, hl, hr]
      simp
    have hmov : anyDirPressed keys = true := by simp [anyDirPressed, hl]
    constructor
    · simp [updateMovement_spec, hmx]
    · simp [updateMovement_spec, hmov, hmx]

/-- Witness for C9 at a concrete input: all four direction keys held. -/
theorem c9_opposing_keys_cancel_witness :
    (updateMovement 0.2 ⟨0, 0, 0⟩ ⟨0, 0, 0⟩ ["KeyW", "KeyS", "KeyA", "KeyD"] 0.016).velocity.z = 0 ∧
    (updateMovement 0.2 ⟨0, 0, 0⟩ ⟨0, 0, 0⟩ ["KeyW", "KeyS", "KeyA", "KeyD"] 0.016).position.z = 0 ∧
    (updateMovement 0.2 ⟨0, 0, 0⟩ ⟨0, 0, 0⟩ ["KeyW", "KeyS", "KeyA", "KeyD"] 0.016).velocity.x = 0 ∧
    (updateMovement 0.2 ⟨0, 0, 0⟩ ⟨0, 0, 0⟩ ["KeyW", "KeyS", "KeyA", "KeyD"] 0.016).position.x = 0 := by
  have h := c9_opposing_keys_cancel 0.2 ⟨0, 0, 0⟩ ⟨0, 0, 0⟩ ["KeyW", "KeyS", "KeyA", "KeyD"] 0.016
  obtain ⟨hz, hpz⟩ := h.1 (by decide) (by decide)
  obtain ⟨hx, hpx⟩ := h.2 (by decide) (by decide)
  exact ⟨hz, hpz, hx, hpx⟩

/-- Counterexample to C7 as stated: two `updateMovement` invocations that
agree on the previous rotation, the pressed-key set and `deltaTime`, but
start from different positions (a hidden ref of the hook), return different
`MovementState`s. -/
theorem c7_counterexample :
    updateMovement 0.2 ⟨0, 0, 0⟩ ⟨0, 0, 0⟩ [] 0.016 ≠
      updateMovement 0.2 ⟨1, 0, 0⟩ ⟨0, 0, 0⟩ [] 0.016 := by
  intro h
  have h2 := congrArg (fun s => s.position.x) h
  have hm : anyDirPressed [] = false := by decide
  simp only [updateMovement_spec, hm, Bool.false_eq_true, if_false] at h2
  norm_num at h2

/-- C7 amended: `updateMovement` is a pure function of the hook's base
`speed`, previous position, previous rotation, pressed-key set and
`deltaTime`; moreover the previous position enters only additively — every
field except `position` is identical across runs that agree on the other
inputs, and the position differs from the previous position by the same
displacement. -/
theorem c7_update_depends_only_on_inputs (speed : ℝ) (p q rot : Vec3) (keys : List String)
    (dt : ℝ) :
    (updateMovement speed p rot keys dt).rotation =
        (updateMovement speed q rot keys dt).rotation ∧
    (updateMovement speed p rot keys dt).isMoving =
        (updateMovement speed q rot keys dt).isMoving ∧
    (updateMovement speed p rot keys dt).isRunning =
        (updateMovement speed q rot keys dt).isRunning ∧
    (updateMovement speed p rot keys dt).velocity =
        (updateMovement speed q rot keys dt).velocity ∧
    (updateMovement speed p rot keys dt).activeKeys =
        (updateMovement speed q rot keys dt).activeKeys ∧
    (updateMovement speed p rot keys dt).position.x - p.x =
        (updateMovement speed q rot keys dt).position.x - q.x ∧
    (updateMovement speed p rot keys dt).position.y - p.y =
        (updateMovement speed q rot keys dt).position.y - q.y ∧
    (updateMovement speed p rot keys dt).position.z - p.z =
        (updateMovement speed q rot keys dt).position.z - q.z := by
  cases hm : anyDirPressed keys <;>
    simp [updateMovement_spec, hm]

/-- Counterexample to C1 as stated: at `deltaTime = 1/60` (and base speed
`0.2`, not running), the diagonal forward+left update returns speed
`√0.08 = 0.2·√2`, which differs from the single-axis speed `0.2`. -/
theorem c1_counterexample :
    (updateMovement 0.2 ⟨0, 0, 0⟩ ⟨0, 0, 0⟩ ["KeyW", "KeyA"] (1 / 60)).velocity.speed ≠
      (updateMovement 0.2 ⟨0, 0, 0⟩ ⟨0, 0, 0⟩ ["KeyW"] (1 / 60)).velocity.speed := by
  have hfs1 : frameSpeedOf 0.2 ["KeyW", "KeyA"] (1 / 60) = 0.2 := by
    rw [frameSpeedOf, show runPressedOf ["KeyW", "KeyA"] = false by decide]
    norm_num
  have hfs2 : frameSpeedOf 0.2 ["KeyW"] (1 / 60) = 0.2 := by
    rw [frameSpeedOf, show runPressedOf ["KeyW"] = false by decide]
    norm_num
  have hmx1 : moveXOf 0.2 ["KeyW", "KeyA"] (1 / 60) = -0.2 := by
    rw [moveXOf, show dirPressed ["KeyW", "KeyA"] Direction.left = true by decide,
      show dirPressed ["KeyW", "KeyA"] Direction.right = false by decide, hfs1]
    norm_num
  have hmz1 : moveZOf 0.2 ["KeyW", "KeyA"] (1 / 60) = -0.2 := by
    rw [moveZOf, show dirPressed ["KeyW", "KeyA"] Direction.forward = true by decide,
      show dirPressed ["KeyW", "KeyA"] Direction.backward = false by decide, hfs1]
    norm_num
  have hmx2 : moveXOf 0.2 ["KeyW"] (1 / 60) = 0 := by
    rw [moveXOf, show dirPressed ["KeyW"] Direction.left = false by decide,
      show dirPressed ["KeyW"] Direction.right = false by decide]
    norm_num
  have hmz2 : moveZOf 0.2 ["KeyW"] (1 / 60) = -0.2 := by
    rw [moveZOf, show dirPressed ["KeyW"] Direction.forward = true by decide,
      show dirPressed ["KeyW"] Direction.backward = false by decide, hfs2]
    norm_num
  simp only [updateMovement_spec]
  rw [hmx1, hmz1, hmx2, hmz2, hypot, hypot,
    show (-0.2 : ℝ) ^ 2 + (-0.2 : ℝ) ^ 2 = 0.08 by norm_num,
    show (0 : ℝ) ^ 2 + (-0.2 : ℝ) ^ 2 = (0.2 : ℝ) ^ 2 by norm_num,
    Real.sqrt_sq (by norm_num : (0 : ℝ) ≤ 0.2)]
  intro h
  have h2 := congrArg (fun t => t ^ 2) h
  simp only at h2
  rw [Real.sq_sqrt (by norm_num : (0 : ℝ) ≤ 0.08)] at h2
  norm_num at h2

/-- C1 amended: with forward+left held (and no opposing keys), one update's
speed magnitude is `√2` times the single-axis (forward only) speed under the
same run state — the resultant vector magnitude, not the per-axis sum
(which would be twice the single-axis speed). -/
theorem c1_diagonal_speed (speed : ℝ) (p₁ p₂ r₁ r₂ : Vec3) (keys₁ keys₂ : List String) (dt : ℝ)
    (h1f : dirPressed keys₁ .forward = true) (h1b : dirPressed keys₁ .backward = false)
    (h1l : dirPressed keys₁ .left = true) (h1r : dirPressed keys₁ .right = false)
    (h2f : dirPressed keys₂ .forward = true) (h2b : dirPressed keys₂ .backward = false)
    (h2l : dirPressed keys₂ .left = false) (h2r : dirPressed keys₂ .right = false)
    (hrun : runPressedOf keys₁ = runPressedOf keys₂) :
    (updateMovement speed p₁ r₁ keys₁ dt).velocity.speed =
      Real.sqrt 2 * (updateMovement speed p₂ r₂ keys₂ dt).velocity.speed := by
  have hfs : frameSpeedOf speed keys₁ dt = frameSpeedOf speed keys₂ dt := by
    rw [frameSpeedOf, frameSpeedOf, hrun]
  have hmx1 : moveXOf speed keys₁ dt = -frameSpeedOf speed keys₂ dt := by
    rw [moveXOf, h1l, h1r, hfs]
    simp
  have hmz1 : moveZOf speed keys₁ dt = -frameSpeedOf speed keys₂ dt := by
    rw [moveZOf, h1f, h1b, hfs]
    simp
  have hmx2 : moveXOf speed keys₂ dt = 0 := by
    rw [moveXOf, h2l, h2r]
    simp
  have hmz2 : moveZOf speed keys₂ dt = -frameSpeedOf speed keys₂ dt := by
    rw [moveZOf, h2f, h2b]
    simp
  simp only [updateMovement_spec]
  rw [hmx1, hmz1, hmx2, hmz2, hypot, hypot]
  rw [show (-frameSpeedOf speed keys₂ dt) ^ 2 + (-frameSpeedOf speed keys₂ dt) ^ 2 =
      2 * ((0 : ℝ) ^ 2 + (-frameSpeedOf speed keys₂ dt) ^ 2) by ring]
  rw [Real.sqrt_mul (by norm_num : (0 : ℝ) ≤ 2)]

/-- Witness for C1's amended theorem at concrete inputs: forward+left versus
forward only at `deltaTime = 0.016`. -/
theorem c1_diagonal_speed_witness :
    (updateMovement 0.2 ⟨0, 0, 0⟩ ⟨0, 0, 0⟩ ["KeyW", "KeyA"] 0.016).velocity.speed =
      Real.sqrt 2 * (updateMovement 0.2 ⟨0, 0, 0⟩ ⟨0, 0, 0⟩ ["KeyW"] 0.016).velocity.speed :=
  c1_diagonal_speed 0.2 ⟨0, 0, 0⟩ ⟨0, 0, 0⟩ ⟨0, 0, 0⟩ ⟨0, 0, 0⟩ ["KeyW", "KeyA"] ["KeyW"] 0.016
    (by decide) (by decide) (by decide) (by decide)
    (by decide) (by decide) (by decide) (by decide) (by decide)

/-! ## Claim theorems: Model Normalizer -/

/-- Counterexample to C3 as stated: `targetHeight = 0` *is* given and the
bounding-box height is `2 > 0`, yet the JS truthiness guard
`if (targetHeight && size.y > 0)` skips scaling, so the container scale is
`1`, not `targetHeight / boundingBoxHeight = 0`. -/
theorem c3_counterexample :
    (createNormalizedContainer ⟨⟨0, 0, 0⟩, ⟨1, 2, 1⟩⟩ (some 0) true).1.scale ≠
      ⟨0 / 2, 0 / 2, 0 / 2⟩ := by
  have h1 : (createNormalizedContainer ⟨⟨0, 0, 0⟩, ⟨1, 2, 1⟩⟩ (some 0) true).1.scale =
      ⟨1, 1, 1⟩ := by
    simp [createNormalizedContainer]
  rw [h1]
  intro hcontra
  have h2 := congrArg Vec3Q.x hcontra
  norm_num at h2

/-- C3 amended: with `centerToGround` (the default), the pivot sits at
`(-center.x, -bbox.min.y, -center.z)`; when a *nonzero* `targetHeight` is
given and the bounding-box height is positive, the container scale is
uniformly `targetHeight / height`, the pivot offset is the same as without
any `targetHeight` (unaffected by the scale); without a `targetHeight` the
container scale stays `1`. -/
theorem c3_normalized_container (modelBox : Box3) (th : ℚ)
    (hth : th ≠ 0) (hh : (boxSize modelBox).y > 0) :
    (createNormalizedContainer modelBox (some th) true).2.position =
        ⟨-(boxCenter modelBox).x, -modelBox.min.y, -(boxCenter modelBox).z⟩ ∧
    (createNormalizedContainer modelBox (some th) true).1.scale =
        ⟨th / (boxSize modelBox).y, th / (boxSize modelBox).y, th / (boxSize modelBox).y⟩ ∧
    (createNormalizedContainer modelBox (some th) true).1.scale.x =
        (createNormalizedContainer modelBox (some th) true).1.scale.y ∧
    (createNormalizedContainer modelBox (some th) true).1.scale.y =
        (createNormalizedContainer modelBox (some th) true).1.scale.z ∧
    (createNormalizedContainer modelBox (some th) true).2.position =
        (createNormalizedContainer modelBox none true).2.position ∧
    (createNormalizedContainer modelBox none true).1.scale = ⟨1, 1, 1⟩ := by
  refine ⟨rfl, ?_, ?_, ?_, rfl, rfl⟩ <;>
    simp [createNormalizedContainer, hth, hh]

/-- Witness for C3's amended theorem: Scenario B — a raw bounding box of
height `9` with `targetHeight = 1.8` gives the uniform scale factor `0.2`
and pivot `(-0.5, 0, -0.5)` for a box spanning `(0,0,0)..(1,9,1)`. -/
theorem c3_normalized_container_witness :
    (createNormalizedContainer ⟨⟨0, 0, 0⟩, ⟨1, 9, 1⟩⟩ (some (9 / 5)) true).1.scale =
        ⟨0.2, 0.2, 0.2⟩ ∧
    (createNormalizedContainer ⟨⟨0, 0, 0⟩, ⟨1, 9, 1⟩⟩ (some (9 / 5)) true).2.position =
        ⟨-(1 / 2), 0, -(1 / 2)⟩ := by
  have h := c3_normalized_container ⟨⟨0, 0, 0⟩, ⟨1, 9, 1⟩⟩ (9 / 5) (by norm_num)
    (by norm_num [boxSize])
  constructor
  · rw [h.2.1]
    norm_num [boxSize, Vec3Q.mk.injEq]
  · rw [h.1]
    norm_num [boxCenter, Vec3Q.mk.injEq]

/-! ## Claim theorems: Root-Motion Stripper -/

/-- C4: `getRootMotionStrippedClips` maps each input clip to a new clip with
the same name and exactly the same duration, in which every track whose
target property is translation (name ending `".position"`) is removed and
the remaining (rotation/scale) tracks are exactly the original non-position
tracks, unchanged in order, count and content. -/
theorem c4_strip_translation_tracks (clips : List AnimationClip) (i : ℕ) (clip : AnimationClip)
    (h : clips[i]? = some clip) :
    (getRootMotionStrippedClips clips).length = clips.length ∧
    ∃ clip', (getRootMotionStrippedClips clips)[i]? = some clip' ∧
      clip'.name = clip.name ∧
      clip'.duration = clip.duration ∧
      clip'.tracks = clip.tracks.filter (fun t => !(t.name.endsWith ".position")) ∧
      (∀ t ∈ clip'.tracks, t.name.endsWith ".position" = false) ∧
      clip'.tracks.length +
          (clip.tracks.filter fun t => t.name.endsWith ".position").length =
        clip.tracks.length := by
  have hne : clips.isEmpty = false := by
    cases clips with
    | nil => simp at h
    | cons a l => rfl
  rw [getRootMotionStrippedClips, hne]
  simp only [Bool.false_eq_true, if_false, List.length_map, true_and]
  refine ⟨AnimationClip.mk clip.name clip.duration
    (clip.tracks.filter (fun t => !(t.name.endsWith ".position"))), ?_, rfl, rfl, rfl,
    ?_, ?_⟩
  · rw [List.getElem?_map, h]
    rfl
  · intro t ht
    have := List.of_mem_filter ht
    simpa using this
  · have hsplit :
        ∀ l : List KeyframeTrack,
          (l.filter fun t => !(t.name.endsWith ".position")).length +
            (l.filter fun t => t.name.endsWith ".position").length = l.length := by
      intro l
      induction l with
      | nil => rfl
      | cons a l ih =>
        by_cases ha : a.name.endsWith ".position" = true
        · simp [List.filter, ha, ← ih]
          omega
        · simp only [Bool.not_eq_true] at ha
          simp [List.filter, ha, ← ih]
          omega
    exact hsplit clip.tracks

/-- Witness for C4 at a concrete clip list: one clip with a translation
track and a rotation track. -/
theorem c4_strip_translation_tracks_witness :
    (getRootMotionStrippedClips
        [⟨"Walk", 2, [⟨"Hips.position", [0], [0]⟩, ⟨"Hips.quaternion", [0], [1]⟩]⟩]).length = 1 ∧
    ∃ clip',
      (getRootMotionStrippedClips
          [⟨"Walk", 2, [⟨"Hips.position", [0], [0]⟩, ⟨"Hips.quaternion", [0], [1]⟩]⟩])[0]? =
        some clip' ∧
      clip'.name = "Walk" ∧
      clip'.duration = 2 ∧
      clip'.tracks =
        ([⟨"Hips.position", [0], [0]⟩, ⟨"Hips.quaternion", [0], [1]⟩] :
            List KeyframeTrack).filter (fun t => !(t.name.endsWith ".position")) ∧
      (∀ t ∈ clip'.tracks, t.name.endsWith ".position" = false) ∧
      clip'.tracks.length +
          (([⟨"Hips.position", [0], [0]⟩, ⟨"Hips.quaternion", [0], [1]⟩] :
              List KeyframeTrack).filter fun t => t.name.endsWith ".position").length = 2 :=
  c4_strip_translation_tracks
    [⟨"Walk", 2, [⟨"Hips.position", [0], [0]⟩, ⟨"Hips.quaternion", [0], [1]⟩]⟩] 0
    ⟨"Walk", 2, [⟨"Hips.position", [0], [0]⟩, ⟨"Hips.quaternion", [0], [1]⟩]⟩ (by decide)

/-! ## Claim theorems: Instance Guard -/

/-- C2: on a free slot, the first `acquire` returns `true` and records the
caller as OWNER; while that owner is registered, an `acquire` by any other
instance returns `false` and leaves the registry unchanged, and the rejected
instance's render performs no scene mutation and creates no animation mixer;
after the owner's `release`, the next `acquire` for that avatar id returns
`true` — the registry maps each avatar id to at most one owner throughout. -/
theorem c2_instance_guard (reg : Registry) (avatarId i1 i2 : String) (anims : Bool)
    (hfree : List.lookup avatarId reg = none) (hne : i2 ≠ i1) :
    (acquire reg avatarId i1).1 = true ∧
    List.lookup avatarId (acquire reg avatarId i1).2 = some i1 ∧
    (acquire (acquire reg avatarId i1).2 avatarId i2).1 = false ∧
    (acquire (acquire reg avatarId i1).2 avatarId i2).2 = (acquire reg avatarId i1).2 ∧
    (renderInstance (acquire reg avatarId i1).2 avatarId i2 anims).1.sceneMutations = 0 ∧
    (renderInstance (acquire reg avatarId i1).2 avatarId i2 anims).1.mixerCreated = false ∧
    (acquire (release (acquire reg avatarId i1).2 avatarId i1) avatarId i2).1 = true := by
  have h1 : acquire reg avatarId i1 = (true, (avatarId, i1) :: reg) := by
    rw [acquire, hfree]
  have hlook : List.lookup avatarId ((avatarId, i1) :: reg) = some i1 := by
    simp [List.lookup]
  have h2 : acquire ((avatarId, i1) :: reg) avatarId i2 = (false, (avatarId, i1) :: reg) := by
    rw [acquire, hlook]
    simp [Ne.symm hne]
  have hrel : release ((avatarId, i1) :: reg) avatarId i1 = reg := by
    rw [release, hlook]
    simp [List.eraseP_cons]
  have h3 : acquire reg avatarId i2 = (true, (avatarId, i2) :: reg) := by
    rw [acquire, hfree]
  refine ⟨?_, ?_, ?_, ?_, ?_, ?_, ?_⟩
  · rw [h1]
  · rw [h1, hlook]
  · rw [h1, h2]
  · rw [h1, h2]
  · rw [h1, renderInstance, h2]
    simp
  · rw [h1, renderInstance, h2]
    simp
  · rw [h1, hrel, h3]

/-- Witness for C2 on a concrete run: Scenario C — two instances attempt
`acquire "dr"` without an intervening release; the first returns `true`,
the second `false`, and after release the slot is free again. -/
theorem c2_instance_guard_witness :
    (acquire [] "dr" "inst_a").1 = true ∧
    List.lookup "dr" (acquire [] "dr" "inst_a").2 = some "inst_a" ∧
    (acquire (acquire [] "dr" "inst_a").2 "dr" "inst_b").1 = false ∧
    (acquire (acquire [] "dr" "inst_a").2 "dr" "inst_b").2 = (acquire [] "dr" "inst_a").2 ∧
    (renderInstance (acquire [] "dr" "inst_a").2 "dr" "inst_b" true).1.sceneMutations = 0 ∧
    (renderInstance (acquire [] "dr" "inst_a").2 "dr" "inst_b" true).1.mixerCreated = false ∧
    (acquire (release (acquire [] "dr" "inst_a").2 "dr" "inst_a") "dr" "inst_b").1 = true :=
  c2_instance_guard [] "dr" "inst_a" "inst_b" true rfl (by decide)

/-! ## Claim theorems: Animation Selector -/

lemma findBy_mem (clips : List AnimationClip) (ps : List ClipPattern) (w : String)
    (h : findBy clips ps = some w) : ∃ c ∈ clips, c.name = w := by
  induction ps with
  | nil => simp [findBy] at h
  | cons p rest ih =>
    rw [findBy] at h
    cases hfind : clips.find? fun c => matchesPattern p c.name with
    | some hit =>
      rw [hfind] at h
      have hw : hit.name = w := by
        injection h
      exact ⟨hit, List.mem_of_find?_eq_some hfind, hw⟩
    | none =>
      rw [hfind] at h
      exact ih h

lemma resolveIdleClip_mem (clips : List AnimationClip) (w : String)
    (h : resolveIdleClip clips = some w) : ∃ c ∈ clips, c.name = w := by
  rw [resolveIdleClip] at h
  cases hfb : findBy clips [.ci "smok", .ci "idle", .ci "stand", .ci "tpose"] with
  | some idle =>
    rw [hfb] at h
    have hw : idle = w := by
      injection h
    subst hw
    exact findBy_mem clips _ idle hfb
  | none =>
    rw [hfb] at h
    rw [Option.map_eq_some'] at h
    obtain ⟨c, hc, hname⟩ := h
    cases clips with
    | nil => simp at hc
    | cons a l =>
      have hca : c = a := by
        simpa using hc.symm
      subst hca
      exact ⟨c, List.mem_cons_self c l, hname⟩

lemma resolveClip_mem (clips : List AnimationClip) (m r : Bool) (w : String)
    (h : resolveClip clips m r = some w) : ∃ c ∈ clips, c.name = w := by
  rw [resolveClip] at h
  cases m with
  | false =>
    simp only [Bool.false_eq_true, if_false] at h
    exact resolveIdleClip_mem clips w h
  | true =>
    simp only [if_true] at h
    cases hfb : findBy clips
        [(if r then ClipPattern.ci "run" else ClipPattern.emptyOnly), .ci "walk",
          .ci "move", .ci "locomotion", .ci "forward"] with
    | some moving =>
      rw [hfb] at h
      have hw : moving = w := by
        injection h
      subst hw
      exact findBy_mem clips _ moving hfb
    | none =>
      rw [hfb] at h
      cases hni : clips.find? fun c => !(idleLikePattern c.name) with
      | some nonIdle =>
        rw [hni] at h
        have hw : nonIdle.name = w := by
          injection h
        exact ⟨nonIdle, List.mem_of_find?_eq_some hni, hw⟩
      | none =>
        rw [hni] at h
        exact resolveIdleClip_mem clips w h

lemma playStripped_resolved (clips : List AnimationClip) (cur : Option String) (w : String)
    (h : ∃ c ∈ clips, c.name = w) :
    playStrippedByName clips cur w =
      (some w, [ActionEffect.reset w, ActionEffect.fadeIn w 0.2,
        ActionEffect.setLoopRepeatInfinite w, ActionEffect.play w]) := by
  obtain ⟨c, hc, hname⟩ := h
  have hsome : (clips.find? fun c => c.name == w).isSome := by
    rw [List.find?_isSome]
    exact ⟨c, hc, by simp [hname]⟩
  obtain ⟨c', hfind⟩ := Option.isSome_iff_exists.mp hsome
  have hname' : c'.name = w := by
    have := List.find?_some hfind
    simpa using this
  rw [playStrippedByName, hfind]
  simp [Option.orElse, hname']

/-- C6: the Animation Selector issues a fade transition only when the
resolved clip name differs from the currently playing one — if the resolved
name equals the current one the tick is a no-op (no effects, state
untouched), and a second tick under the same movement inputs right after any
tick issues no effects and leaves the playing clip unchanged. -/
theorem c6_no_refade_on_same_clip (clips : List AnimationClip) (current : Option String)
    (m r : Bool) :
    (resolveClip clips m r = current → frameAnimationSelect clips current m r = (current, [])) ∧
    frameAnimationSelect clips (frameAnimationSelect clips current m r).1 m r =
      ((frameAnimationSelect clips current m r).1, []) := by
  constructor
  · intro hres
    rw [frameAnimationSelect, hres]
    cases current with
    | none => rfl
    | some w => simp
  · cases hres : resolveClip clips m r with
    | none =>
      have hstep : frameAnimationSelect clips current m r = (current, []) := by
        rw [frameAnimationSelect, hres]
      rw [hstep]
      exact hstep
    | some w =>
      by_cases hcond : w ≠ "" ∧ some w ≠ current
      · have hplay := playStripped_resolved clips (some w) w (resolveClip_mem clips m r w hres)
        have hstep : frameAnimationSelect clips current m r =
            (some w, [ActionEffect.reset w, ActionEffect.fadeIn w 0.2,
              ActionEffect.setLoopRepeatInfinite w, ActionEffect.play w]) := by
          rw [frameAnimationSelect, hres]
          show (if w ≠ "" ∧ some w ≠ current then playStrippedByName clips (some w) w
            else (current, [])) = _
          rw [if_pos hcond]
          exact hplay
        rw [hstep]
        rw [frameAnimationSelect, hres]
        simp
      · have hstep : frameAnimationSelect clips current m r = (current, []) := by
          rw [frameAnimationSelect, hres]
          show (if w ≠ "" ∧ some w ≠ current then playStrippedByName clips (some w) w
            else (current, [])) = _
          rw [if_neg hcond]
        rw [hstep]
        have hstep2 : frameAnimationSelect clips current m r = (current, []) := hstep
        exact hstep2

/-- Witness for C6: a tick whose resolved clip equals the playing one is a
no-op, and a second tick after a switch issues nothing further. -/
theorem c6_no_refade_on_same_clip_witness :
    frameAnimationSelect [⟨"Walk", 1, []⟩, ⟨"Idle", 1, []⟩] (some "Idle") false false =
        (some "Idle", []) ∧
    frameAnimationSelect [⟨"Walk", 1, []⟩, ⟨"Idle", 1, []⟩]
        (frameAnimationSelect [⟨"Walk", 1, []⟩, ⟨"Idle", 1, []⟩] (some "Idle") true false).1
        true false =
      ((frameAnimationSelect [⟨"Walk", 1, []⟩, ⟨"Idle", 1, []⟩] (some "Idle") true false).1,
        []) :=
  ⟨(c6_no_refade_on_same_clip [⟨"Walk", 1, []⟩, ⟨"Idle", 1, []⟩] (some "Idle") false false).1
      (by decide),
    (c6_no_refade_on_same_clip [⟨"Walk", 1, []⟩, ⟨"Idle", 1, []⟩] (some "Idle") true false).2⟩
